import Mathlib

set_option autoImplicit false
set_option maxRecDepth 100000

/-!
Shallow embedding of a small todo application (model / view / event emitter)
and proofs about its behaviour.

The embedding covers:
* `escapeSpecialChars` and the tagged-template builder `element` from
  `src/view/html-util.js`;
* the item templates of `TodoItemView.createElement` and the child loop of
  `TodoListView.createElement`;
* `EventEmitter` (`src/EventEmitter.js`): a Map from event name to a Set of
  listeners, embedded as an association list of duplicate-free lists;
* `TodoItemModel` (global counter id assignment, `isEmptyTitle`);
* `TodoListModel` (`addTodo` / `updateTodo` / `deleteTodo` / `getTodoItems` /
  `getTotalCount`), where each operation also returns the list of `"change"`
  emissions it performed, each emission carrying the listeners invoked;
* `App.mount`, which subscribes the stable `#handleChange` field.
-/

namespace ReactModan

/-! ### view/html-util.js -/

/-- One global single-character replacement, `str.replace(/target/g, repl)`,
on the character list of the string. -/
def replaceChar (target : Char) (repl : List Char) : List Char → List Char
  | [] => []
  | c :: cs =>
    if c = target then repl ++ replaceChar target repl cs
    else c :: replaceChar target repl cs

/-- `escapeSpecialChars` from `src/view/html-util.js` lines 35-42: five
sequential global replacements, in source order `&`, `<`, `>`, `"`, `'`. -/
def escapeSpecialChars (s : String) : String :=
  String.mk
    (replaceChar '\x27' "&#039;".data
      (replaceChar '"' "&quot;".data
        (replaceChar '>' "&gt;".data
          (replaceChar '<' "&lt;".data
            (replaceChar '&' "&amp;".data s.data)))))

/-- Modelled from the spec words of the escaping contract: the entity
substitution applied to one character (each of the five special characters is
replaced by its entity equivalent, every other character is kept). -/
def escapeChar (c : Char) : List Char :=
  if c = '&' then "&amp;".data
  else if c = '<' then "&lt;".data
  else if c = '>' then "&gt;".data
  else if c = '"' then "&quot;".data
  else if c = '\x27' then "&#039;".data
  else [c]

/-- Modelled from the spec words: character-wise entity substitution over a
whole character list. -/
def escapeCharList : List Char → List Char
  | [] => []
  | c :: cs => escapeChar c ++ escapeCharList cs

/-- The dynamic values interpolated into the `element` tagged template.
`arr` models a JS array of strings; its `String()` form joins the elements
with commas and applies no escaping. -/
inductive JSValue where
  | str (s : String)
  | num (n : Int)
  | bool (b : Bool)
  | undefined
  | arr (elems : List String)
deriving DecidableEq

/-- JS `String(value)` for the embedded values. -/
def JSValue.jsString : JSValue → String
  | .str s => s
  | .num n => toString n
  | .bool b => toString b
  | .undefined => "undefined"
  | .arr es => String.intercalate "," es

/-- `typeof value === "string"`. -/
def JSValue.isStr : JSValue → Bool
  | .str _ => true
  | _ => false

/-- The per-value branch inside `element` (html-util.js lines 87-92):
a string value is escaped, any other value goes through `String(value)`
unchanged. -/
def interpValue : JSValue → String
  | .str s => escapeSpecialChars s
  | v => v.jsString

/-- The HTML string assembled by `element` (html-util.js lines 85-93).  A
tagged template always supplies `strings = [s0, s1, ..., sn]` and
`values = [v1, ..., vn]`; the `reduce` then produces
`s0 ++ interp v1 ++ s1 ++ ... ++ interp vn ++ sn`.  We pair each value with
the static part that follows it. -/
def elementHtml (s0 : String) (parts : List (JSValue × String)) : String :=
  parts.foldl (fun acc p => acc ++ interpValue p.1 ++ p.2) s0

/-- Static template part before the title in the completed branch of
`TodoItemView.createElement`. -/
def completedTemplateHead : String :=
  "<li><input type=\"checkbox\" class=\"checkbox\" checked>\n                                    <s>"

/-- Static template part after the title in the completed branch. -/
def completedTemplateTail : String :=
  "</s>\n                                    <button class=\"delete\">x</button>\n                                </li>"

/-- Static template part before the title in the uncompleted branch. -/
def uncompletedTemplateHead : String :=
  "<li><input type=\"checkbox\" class=\"checkbox\">\n                                    "

/-- Static template part after the title in the uncompleted branch. -/
def uncompletedTemplateTail : String :=
  "\n                                    <button class=\"delete\">x</button>\n                                </li>"

/-! ### model/TodoItemModel.js -/

/-- A todo entity: `id`, `title`, `completed`. -/
structure TodoItemModel where
  id : Nat
  title : String
  completed : Bool
deriving DecidableEq

/-- `isEmptyTitle` (TodoItemModel.js line 266-268): a pure length check. -/
def TodoItemModel.isEmptyTitle (t : TodoItemModel) : Bool :=
  t.title.length == 0

/-- `new TodoItemModel({title, completed})` together with the module-global
counter `todoIdx` (line 231 and 249-254): the entity receives the current
counter value as `id` and the counter is incremented. -/
def TodoItemModel.new (todoIdx : Nat) (title : String) (completed : Bool) :
    TodoItemModel × Nat :=
  (⟨todoIdx, title, completed⟩, todoIdx + 1)

/-- The HTML string built by `TodoItemView.createElement` for one item
(the element tree before event wiring), by the `completed` branch. -/
def todoItemHtml (t : TodoItemModel) : String :=
  if t.completed then
    elementHtml completedTemplateHead [(JSValue.str t.title, completedTemplateTail)]
  else
    elementHtml uncompletedTemplateHead [(JSValue.str t.title, uncompletedTemplateTail)]

/-- `TodoListView.createElement`: starting from the empty `<ul></ul>`, the
`forEach` loop appends one child element per item, in sequence order.  We
record the resulting child list. -/
def todoListChildren (items : List TodoItemModel) : List String :=
  items.foldl (fun children t => children ++ [todoItemHtml t]) []

/-! ### EventEmitter.js -/

/-- `Set.add`: appends the element at the end unless already present. -/
def setAdd {H : Type} [DecidableEq H] (s : List H) (h : H) : List H :=
  if h ∈ s then s else s ++ [h]

/-- `addEventListener` on the underlying Map: a Map has unique keys, so
`has`/`set`/`get` amounts to updating the first (only) entry with this key,
or appending a fresh entry. -/
def addListener {H : Type} [DecidableEq H] :
    List (String × List H) → String → H → List (String × List H)
  | [], t, h => [(t, [h])]
  | p :: ps, t, h =>
    if p.1 = t then (p.1, setAdd p.2 h) :: ps
    else p :: addListener ps t h

/-- `Map.get`: the listener set stored under a key (empty when absent). -/
def lookupListeners {H : Type} : List (String × List H) → String → List H
  | [], _ => []
  | p :: ps, t => if p.1 = t then p.2 else lookupListeners ps t

/-- `removeEventListener` on the underlying Map: if the key is absent nothing
happens, otherwise the matching listener is deleted from its Set. -/
def removeListener {H : Type} [DecidableEq H] :
    List (String × List H) → String → H → List (String × List H)
  | [], _, _ => []
  | p :: ps, t, h =>
    if p.1 = t then (p.1, p.2.filter (fun x => x ≠ h)) :: ps
    else p :: removeListener ps t h

/-- `EventEmitter` (EventEmitter.js lines 138-202): `#listeners` is a Map
from event name to a Set of listener functions.  Listeners are drawn from an
abstract type `H` with decidable equality (JS `===`). -/
structure EventEmitter (H : Type) where
  listeners : List (String × List H)
deriving DecidableEq

def EventEmitter.addEventListener {H : Type} [DecidableEq H]
    (e : EventEmitter H) (t : String) (h : H) : EventEmitter H :=
  ⟨addListener e.listeners t h⟩

def EventEmitter.removeEventListener {H : Type} [DecidableEq H]
    (e : EventEmitter H) (t : String) (h : H) : EventEmitter H :=
  ⟨removeListener e.listeners t h⟩

/-- `emit` (lines 170-179): invokes every listener registered for the key,
in registration order.  The embedding returns the invoked listeners. -/
def EventEmitter.emit {H : Type} (e : EventEmitter H) (t : String) : List H :=
  lookupListeners e.listeners t

/-- Every per-key listener collection is duplicate-free — the invariant the
JS `Set` maintains. -/
def EventEmitter.WellFormed {H : Type} (e : EventEmitter H) : Prop :=
  ∀ p ∈ e.listeners, p.2.Nodup

/-! ### model/TodoListModel.js -/

/-- `TodoListModel`: the ordered item sequence plus the inherited emitter
state. -/
structure TodoListModel (H : Type) where
  items : List TodoItemModel
  emitter : EventEmitter H
deriving DecidableEq

def TodoListModel.getTotalCount {H : Type} (s : TodoListModel H) : Nat :=
  s.items.length

/-- `getTodoItems` (line 321-323): `return this.#items` — the internal array
itself, not a copy. -/
def TodoListModel.getTodoItems {H : Type} (s : TodoListModel H) :
    List TodoItemModel :=
  s.items

def TodoListModel.onChange {H : Type} [DecidableEq H]
    (s : TodoListModel H) (h : H) : TodoListModel H :=
  ⟨s.items, s.emitter.addEventListener "change" h⟩

def TodoListModel.offChange {H : Type} [DecidableEq H]
    (s : TodoListModel H) (h : H) : TodoListModel H :=
  ⟨s.items, s.emitter.removeEventListener "change" h⟩

/-- `emitChange` = `emit("change")`: the listeners invoked by one change
notification. -/
def TodoListModel.emitChange {H : Type} (s : TodoListModel H) : List H :=
  s.emitter.emit "change"

/-- `addTodo` (lines 367-374).  Besides the new state, the operation returns
the list of `"change"` emissions it performed (each emission is the list of
listeners it invoked). -/
def TodoListModel.addTodo {H : Type} (s : TodoListModel H)
    (item : TodoItemModel) : TodoListModel H × List (List H) :=
  if item.isEmptyTitle then (s, [])
  else (⟨s.items ++ [item], s.emitter⟩, [s.emitChange])

/-- The in-place mutation `todoItem.completed = completed` performed on the
first array element whose `id` matches (the object `find` returned). -/
def updateFirst : List TodoItemModel → Nat → Bool → List TodoItemModel
  | [], _, _ => []
  | t :: ts, i, c =>
    if t.id = i then ⟨t.id, t.title, c⟩ :: ts
    else t :: updateFirst ts i c

/-- `updateTodo` (lines 385-392): `find` the first entity with this id;
when absent return without notifying, otherwise mutate its `completed`
field and notify once. -/
def TodoListModel.updateTodo {H : Type} (s : TodoListModel H)
    (i : Nat) (c : Bool) : TodoListModel H × List (List H) :=
  match s.items.find? (fun t => t.id == i) with
  | none => (s, [])
  | some _ => (⟨updateFirst s.items i c, s.emitter⟩, [s.emitChange])

/-- `deleteTodo` (lines 403-409): keep exactly the entities whose id differs,
then notify unconditionally. -/
def TodoListModel.deleteTodo {H : Type} (s : TodoListModel H)
    (i : Nat) : TodoListModel H × List (List H) :=
  (⟨s.items.filter (fun t => t.id ≠ i), s.emitter⟩, [s.emitChange])

/-- Semantics of the caller expression `model.getTodoItems().push(item)`:
`getTodoItems` returns `this.#items` itself (the live array, no copy), so
the `push` appends to the container's own internal array. -/
def TodoListModel.getTodoItemsThenPush {H : Type} (s : TodoListModel H)
    (t : TodoItemModel) : TodoListModel H :=
  ⟨s.getTodoItems ++ [t], s.emitter⟩

/-! ### app.js -/

/-- A sequence of add interactions (`App.#handleAdd`): each constructs an
entity through the global counter — incrementing it even when `addTodo`
subsequently rejects — and then calls `addTodo`.  Returns the final model
and counter. -/
def runAdds {H : Type} : Nat → TodoListModel H → List String →
    TodoListModel H × Nat
  | c, s, [] => (s, c)
  | c, s, title :: rest =>
    runAdds (TodoItemModel.new c title false).2
      (s.addTodo (TodoItemModel.new c title false).1).1 rest

/-- `App.mount` (app.js lines 161-164): subscribes the stable instance field
`#handleChange` to the model's `"change"` event.  (The DOM submit wiring is
outside the model.) -/
def App.mount {H : Type} [DecidableEq H] (handleChange : H)
    (s : TodoListModel H) : TodoListModel H :=
  s.onChange handleChange

/-! ### Lemmas about the escaping pipeline -/

lemma replaceChar_append (t : Char) (r : List Char) (a b : List Char) :
    replaceChar t r (a ++ b) = replaceChar t r a ++ replaceChar t r b := by
  induction a with
  | nil => rfl
  | cons c cs ih =>
    by_cases hc : c = t <;> simp [replaceChar, hc, ih]

lemma escape_chain (l : List Char) :
    replaceChar '\x27' "&#039;".data
      (replaceChar '"' "&quot;".data
        (replaceChar '>' "&gt;".data
          (replaceChar '<' "&lt;".data
            (replaceChar '&' "&amp;".data l)))) = escapeCharList l := by
  induction l with
  | nil => rfl
  | cons c cs ih =>
    have h1 : replaceChar '&' "&amp;".data (c :: cs)
        = (if c = '&' then "&amp;".data else [c])
          ++ replaceChar '&' "&amp;".data cs := by
      by_cases hc : c = '&' <;> simp [replaceChar, hc]
    rw [h1]
    simp only [replaceChar_append]
    rw [ih]
    show _ ++ _ = escapeCharList (c :: cs)
    rw [escapeCharList]
    congr 1
    by_cases h1 : c = '&'
    · subst h1; decide
    by_cases h2 : c = '<'
    · subst h2; decide
    by_cases h3 : c = '>'
    · subst h3; decide
    by_cases h4 : c = '"'
    · subst h4; decide
    by_cases h5 : c = '\x27'
    · subst h5; decide
    simp [replaceChar, escapeChar, h1, h2, h3, h4, h5]

lemma escapeSpecialChars_data (s : String) :
    (escapeSpecialChars s).data = escapeCharList s.data :=
  escape_chain s.data

/-! ### Lemmas about the event emitter -/

lemma lookup_addListener {H : Type} [DecidableEq H]
    (l : List (String × List H)) (t : String) (h : H) :
    lookupListeners (addListener l t h) t = setAdd (lookupListeners l t) h := by
  induction l with
  | nil => simp [addListener, lookupListeners, setAdd]
  | cons p ps ih =>
    by_cases hp : p.1 = t
    · simp [addListener, lookupListeners, hp]
    · simp [addListener, lookupListeners, hp, ih]

lemma mem_setAdd_self {H : Type} [DecidableEq H] (s : List H) (h : H) :
    h ∈ setAdd s h := by
  by_cases hs : h ∈ s <;> simp [setAdd, hs]

lemma setAdd_idem {H : Type} [DecidableEq H] (s : List H) (h : H) :
    setAdd (setAdd s h) h = setAdd s h := by
  have hmem := mem_setAdd_self s h
  generalize hu : setAdd s h = u at hmem ⊢
  simp [setAdd, hmem]

lemma addListener_idem {H : Type} [DecidableEq H]
    (l : List (String × List H)) (t : String) (h : H) :
    addListener (addListener l t h) t h = addListener l t h := by
  induction l with
  | nil => simp [addListener, setAdd]
  | cons p ps ih =>
    by_cases hp : p.1 = t
    · simp [addListener, hp, setAdd_idem]
    · simp [addListener, hp, ih]

lemma removeListener_of_not_mem {H : Type} [DecidableEq H]
    (l : List (String × List H)) (t : String) (h : H)
    (hn : h ∉ lookupListeners l t) : removeListener l t h = l := by
  induction l with
  | nil => rfl
  | cons p ps ih =>
    by_cases hp : p.1 = t
    · rw [lookupListeners, if_pos hp] at hn
      have hfil : p.2.filter (fun x => x ≠ h) = p.2 := by
        apply List.filter_eq_self.2
        intro a ha
        have hne : a ≠ h := fun he => hn (he ▸ ha)
        simpa using hne
      show (if p.1 = t then (p.1, p.2.filter (fun x => x ≠ h)) :: ps
        else p :: removeListener ps t h) = p :: ps
      rw [if_pos hp, hfil]
    · rw [lookupListeners, if_neg hp] at hn
      show (if p.1 = t then (p.1, p.2.filter (fun x => x ≠ h)) :: ps
        else p :: removeListener ps t h) = p :: ps
      rw [if_neg hp, ih hn]

lemma lookup_nodup {H : Type} (l : List (String × List H)) (t : String)
    (hwf : ∀ p ∈ l, p.2.Nodup) : (lookupListeners l t).Nodup := by
  induction l with
  | nil => simp [lookupListeners]
  | cons p ps ih =>
    by_cases hp : p.1 = t
    · rw [lookupListeners, if_pos hp]
      exact hwf p (List.mem_cons_self p ps)
    · rw [lookupListeners, if_neg hp]
      exact ih (fun q hq => hwf q (List.mem_cons_of_mem p hq))

lemma setAdd_count_self {H : Type} [DecidableEq H] (s : List H) (h : H)
    (hs : s.Nodup) : (setAdd s h).count h = 1 := by
  by_cases hmem : h ∈ s
  · rw [setAdd, if_pos hmem]
    exact List.count_eq_one_of_mem hs hmem
  · rw [setAdd, if_neg hmem]
    rw [List.count_append, List.count_eq_zero_of_not_mem hmem]
    simp

/-! ### Lemmas about the model operations -/

lemma updateFirst_map_id (l : List TodoItemModel) (i : Nat) (c : Bool) :
    (updateFirst l i c).map TodoItemModel.id = l.map TodoItemModel.id := by
  induction l with
  | nil => rfl
  | cons t ts ih =>
    by_cases ht : t.id = i <;> simp [updateFirst, ht, ih]

lemma updateFirst_map_title (l : List TodoItemModel) (i : Nat) (c : Bool) :
    (updateFirst l i c).map TodoItemModel.title = l.map TodoItemModel.title := by
  induction l with
  | nil => rfl
  | cons t ts ih =>
    by_cases ht : t.id = i <;> simp [updateFirst, ht, ih]

lemma updateFirst_spec (i : Nat) (c : Bool) (pre : List TodoItemModel)
    (t : TodoItemModel) (post : List TodoItemModel)
    (hpre : ∀ u ∈ pre, u.id ≠ i) (ht : t.id = i) :
    updateFirst (pre ++ t :: post) i c = pre ++ ⟨t.id, t.title, c⟩ :: post := by
  induction pre with
  | nil => simp [updateFirst, ht]
  | cons u us ih =>
    have hu : u.id ≠ i := hpre u (List.mem_cons_self u us)
    simp only [List.cons_append, updateFirst, if_neg hu, List.append_eq]
    rw [ih (fun v hv => hpre v (List.mem_cons_of_mem u hv))]

lemma updateTodo_map_id {H : Type} (s : TodoListModel H) (i : Nat) (c : Bool) :
    (s.updateTodo i c).1.items.map TodoItemModel.id
      = s.items.map TodoItemModel.id := by
  cases hf : s.items.find? (fun t => t.id == i) with
  | none => simp [TodoListModel.updateTodo, hf]
  | some t0 => simp [TodoListModel.updateTodo, hf, updateFirst_map_id]

lemma updateTodo_map_title {H : Type} (s : TodoListModel H) (i : Nat) (c : Bool) :
    (s.updateTodo i c).1.items.map TodoItemModel.title
      = s.items.map TodoItemModel.title := by
  cases hf : s.items.find? (fun t => t.id == i) with
  | none => simp [TodoListModel.updateTodo, hf]
  | some t0 => simp [TodoListModel.updateTodo, hf, updateFirst_map_title]

lemma foldl_append_singleton {α β : Type} (f : α → β) (l : List α) :
    ∀ acc : List β, l.foldl (fun ch t => ch ++ [f t]) acc = acc ++ l.map f := by
  induction l with
  | nil => intro acc; simp
  | cons t ts ih => intro acc; simp [ih]

lemma todoListChildren_eq_map (items : List TodoItemModel) :
    todoListChildren items = items.map todoItemHtml := by
  rw [todoListChildren, foldl_append_singleton]
  simp

lemma runAdds_invariant {H : Type} (titles : List String) :
    ∀ (c : Nat) (s : TodoListModel H),
      (∀ t ∈ s.items, t.id < c) →
      (s.items.map TodoItemModel.id).Pairwise (· < ·) →
      (∀ t ∈ (runAdds c s titles).1.items, t.id < (runAdds c s titles).2) ∧
      ((runAdds c s titles).1.items.map TodoItemModel.id).Pairwise (· < ·) := by
  induction titles with
  | nil => intro c s h1 h2; exact ⟨h1, h2⟩
  | cons title rest ih =>
    intro c s h1 h2
    rw [runAdds]
    by_cases ht : title.length = 0
    · have hstate : (s.addTodo (TodoItemModel.new c title false).1).1 = s := by
        simp [TodoListModel.addTodo, TodoItemModel.new, TodoItemModel.isEmptyTitle, ht]
      rw [hstate]
      exact ih (c + 1) s
        (fun t htm => Nat.lt_succ_of_lt (h1 t htm)) h2
    · have hstate : (s.addTodo (TodoItemModel.new c title false).1).1
          = ⟨s.items ++ [⟨c, title, false⟩], s.emitter⟩ := by
        simp [TodoListModel.addTodo, TodoItemModel.new, TodoItemModel.isEmptyTitle, ht]
      rw [hstate]
      apply ih (c + 1)
      · intro t htm
        rcases List.mem_append.1 htm with hmem | hmem
        · exact Nat.lt_succ_of_lt (h1 t hmem)
        · simp only [List.mem_singleton] at hmem
          subst hmem
          exact Nat.lt_succ_self c
      · rw [List.map_append, List.pairwise_append]
        refine ⟨h2, List.pairwise_singleton _ _, ?_⟩
        intro x hx y hy
        simp only [List.map_cons, List.map_nil, List.mem_singleton] at hy
        subst hy
        rcases List.mem_map.1 hx with ⟨t, htm, rfl⟩
        exact h1 t htm

/-! ### Lemmas about mounting -/

lemma mount_mount {H : Type} [DecidableEq H] (h : H) (s : TodoListModel H) :
    App.mount h (App.mount h s) = App.mount h s := by
  simp [App.mount, TodoListModel.onChange, EventEmitter.addEventListener,
    addListener_idem]

lemma iterate_mount {H : Type} [DecidableEq H] (h : H) (s : TodoListModel H) :
    ∀ n : Nat, 1 ≤ n → (App.mount h)^[n] s = App.mount h s := by
  intro n
  induction n with
  | zero => intro hn; exact absurd hn (by decide)
  | succ m ih =>
    intro _
    rcases Nat.eq_zero_or_pos m with hm | hm
    · subst hm; rfl
    · rw [Function.iterate_succ_apply', ih hm, mount_mount]

/-! ### Claim theorems -/

/-- C1: every string value interpolated by the element builder is escaped
character-wise before insertion — each occurrence of the five characters
`& < > " '` becomes its HTML entity equivalent — and for the title
`<script>alert(1)</script>` the produced item markup contains the escaped
`&lt;script&gt;` form and no literal unescaped `<script` anywhere. -/
theorem C1_escaping (s : String) :
    (escapeSpecialChars s).data = escapeCharList s.data ∧
    escapeSpecialChars "<script>alert(1)</script>"
      = "&lt;script&gt;alert(1)&lt;/script&gt;" ∧
    List.IsInfix "&lt;script&gt;".data
      (todoItemHtml ⟨0, "<script>alert(1)</script>", false⟩).data ∧
    ¬ List.IsInfix "<script".data
      (todoItemHtml ⟨0, "<script>alert(1)</script>", false⟩).data :=
  ⟨escapeSpecialChars_data s, by decide, by decide, by decide⟩

/-- C2: `addTodo` appends the entity and performs exactly one `"change"`
emission precisely when the title has nonzero length; with an empty title it
is a no-op (same items, same total count, no emission, so no subscribed
handler is invoked); a whitespace-only title is appended and notified,
`isEmptyTitle` being a pure length check. -/
theorem C2_addTodo (H : Type) (s : TodoListModel H) (item : TodoItemModel) :
    item.isEmptyTitle = (item.title.length == 0) ∧
    (s.addTodo item).1.items
      = (if item.title.length = 0 then s.items else s.items ++ [item]) ∧
    (s.addTodo item).1.getTotalCount
      = (if item.title.length = 0 then s.getTotalCount else s.getTotalCount + 1) ∧
    (s.addTodo item).2
      = (if item.title.length = 0 then [] else [s.emitter.emit "change"]) ∧
    (s.addTodo ⟨item.id, "   ", item.completed⟩).1.items
      = s.items ++ [⟨item.id, "   ", item.completed⟩] ∧
    (s.addTodo ⟨item.id, "   ", item.completed⟩).2.length = 1 := by
  refine ⟨rfl, ?_, ?_, ?_, ?_, ?_⟩
  · by_cases h : item.title.length = 0 <;>
      simp [TodoListModel.addTodo, TodoItemModel.isEmptyTitle, h]
  · by_cases h : item.title.length = 0 <;>
      simp [TodoListModel.addTodo, TodoItemModel.isEmptyTitle,
        TodoListModel.getTotalCount, h]
  · by_cases h : item.title.length = 0 <;>
      simp [TodoListModel.addTodo, TodoItemModel.isEmptyTitle,
        TodoListModel.emitChange, h]
  · simp [TodoListModel.addTodo, TodoItemModel.isEmptyTitle,
      show ("   " : String).length = 3 from rfl]
  · simp [TodoListModel.addTodo, TodoItemModel.isEmptyTitle,
      show ("   " : String).length = 3 from rfl]

/-- C3: `deleteTodo` replaces the sequence by the entities whose id differs
(removing every match, preserving the order of the rest) and performs exactly
one `"change"` emission unconditionally; in particular deleting id 999 from an
empty container still emits once while the count stays 0. -/
theorem C3_deleteTodo (H : Type) (s : TodoListModel H) (i : Nat) :
    (s.deleteTodo i).1.items = s.items.filter (fun t => t.id ≠ i) ∧
    (s.deleteTodo i).2 = [s.emitter.emit "change"] ∧
    (s.deleteTodo i).2.length = 1 ∧
    ((⟨[], s.emitter⟩ : TodoListModel H).deleteTodo 999).2.length = 1 ∧
    ((⟨[], s.emitter⟩ : TodoListModel H).deleteTodo 999).1.getTotalCount = 0 :=
  ⟨rfl, rfl, rfl, rfl, rfl⟩

/-- C4: `updateTodo` looks up the first entity with the given id; when none
exists the call leaves every entity unchanged and performs no emission; when
one exists, exactly its `completed` field is set in place (ids and titles of
all entities unchanged, entities before the first match untouched) and
exactly one `"change"` emission is performed. -/
theorem C4_updateTodo (H : Type) (s : TodoListModel H) (i : Nat) (c : Bool) :
    (s.items.find? (fun t => t.id == i) = none → s.updateTodo i c = (s, [])) ∧
    (∀ t0, s.items.find? (fun t => t.id == i) = some t0 →
      (s.updateTodo i c).1.items = updateFirst s.items i c ∧
      (s.updateTodo i c).2 = [s.emitter.emit "change"]) ∧
    (updateFirst s.items i c).map TodoItemModel.id
      = s.items.map TodoItemModel.id ∧
    (updateFirst s.items i c).map TodoItemModel.title
      = s.items.map TodoItemModel.title ∧
    (∀ pre t post, (∀ u ∈ pre, u.id ≠ i) → t.id = i →
      updateFirst (pre ++ t :: post) i c = pre ++ ⟨t.id, t.title, c⟩ :: post) := by
  refine ⟨?_, ?_, updateFirst_map_id s.items i c, updateFirst_map_title s.items i c,
    fun pre t post h1 h2 => updateFirst_spec i c pre t post h1 h2⟩
  · intro hn
    simp [TodoListModel.updateTodo, hn]
  · intro t0 hf
    constructor <;> simp [TodoListModel.updateTodo, hf, TodoListModel.emitChange]

/-- C4 witness: on the container holding A (id 0) and B (id 1), updating id 1
to completed goes through the matching branch, emits once, and rewrites
exactly the first matching entity. -/
theorem C4_updateTodo_witness :
    ((⟨[⟨0, "A", false⟩, ⟨1, "B", false⟩], ⟨[]⟩⟩ : TodoListModel Nat).updateTodo
        1 true).1.items = updateFirst [⟨0, "A", false⟩, ⟨1, "B", false⟩] 1 true ∧
    ((⟨[⟨0, "A", false⟩, ⟨1, "B", false⟩], ⟨[]⟩⟩ : TodoListModel Nat).updateTodo
        1 true).2 = [(⟨[]⟩ : EventEmitter Nat).emit "change"] ∧
    updateFirst ([⟨0, "A", false⟩] ++ ⟨1, "B", false⟩ :: []) 1 true
      = [⟨0, "A", false⟩] ++ ⟨1, "B", true⟩ :: [] := by
  have h := C4_updateTodo Nat ⟨[⟨0, "A", false⟩, ⟨1, "B", false⟩], ⟨[]⟩⟩ 1 true
  exact ⟨(h.2.1 ⟨1, "B", false⟩ (by decide)).1,
    (h.2.1 ⟨1, "B", false⟩ (by decide)).2,
    h.2.2.2.2 [⟨0, "A", false⟩] ⟨1, "B", false⟩ [] (by decide) rfl⟩

/-- C5: ids are assigned monotonically by the entity constructor (the global
counter value becomes the id and the counter increments), so after any
sequence of add interactions starting from the empty container the ids are
strictly increasing along the sequence, in particular pairwise distinct; and
`updateTodo` never changes any entity's id. -/
theorem C5_unique_ids (H : Type) (e : EventEmitter H) (c0 : Nat)
    (titles : List String) (t : String) (b : Bool)
    (s : TodoListModel H) (i : Nat) (c : Bool) :
    (TodoItemModel.new c0 t b).1.id = c0 ∧
    (TodoItemModel.new c0 t b).2 = c0 + 1 ∧
    ((runAdds c0 (⟨[], e⟩ : TodoListModel H) titles).1.items.map
      TodoItemModel.id).Pairwise (· < ·) ∧
    ((runAdds c0 (⟨[], e⟩ : TodoListModel H) titles).1.items.map
      TodoItemModel.id).Nodup ∧
    (s.updateTodo i c).1.items.map TodoItemModel.id
      = s.items.map TodoItemModel.id := by
  have hinv := (runAdds_invariant titles c0 (⟨[], e⟩ : TodoListModel H)
    (by simp) (by simp)).2
  exact ⟨rfl, rfl, hinv, hinv.imp (fun hlt => Nat.ne_of_lt hlt),
    updateTodo_map_id s i c⟩

/-- C6: `updateTodo` preserves the relative order of the entities (the id and
title sequences are unchanged), and `deleteTodo` keeps exactly the entities
whose id differs, as an order-preserving sublist of the original sequence;
the list view renders one child per entity in sequence order, so insertion
order equals display order. -/
theorem C6_order (H : Type) (s : TodoListModel H) (i : Nat) (c : Bool)
    (items : List TodoItemModel) :
    (s.updateTodo i c).1.items.map TodoItemModel.id
      = s.items.map TodoItemModel.id ∧
    (s.updateTodo i c).1.items.map TodoItemModel.title
      = s.items.map TodoItemModel.title ∧
    (s.deleteTodo i).1.items = s.items.filter (fun t => t.id ≠ i) ∧
    (s.deleteTodo i).1.items.Sublist s.items ∧
    (∀ t, t ∈ (s.deleteTodo i).1.items ↔ t ∈ s.items ∧ t.id ≠ i) ∧
    todoListChildren items = items.map todoItemHtml := by
  refine ⟨updateTodo_map_id s i c, updateTodo_map_title s i c, rfl,
    List.filter_sublist s.items, ?_, todoListChildren_eq_map items⟩
  intro t
  simp [TodoListModel.deleteTodo, List.mem_filter]

/-- C7 counterexample: `getTodoItems` returns `this.#items` itself, so pushing
onto the returned array does change the container's subsequently observed
state — on the empty container, after `getTodoItems().push(item)` the total
count reads 1, not the unchanged 0 the claim requires. -/
theorem C7_counterexample :
    ¬ (((⟨[], ⟨[]⟩⟩ : TodoListModel Nat).getTodoItemsThenPush
          ⟨0, "Buy milk", false⟩).getTotalCount
        = (⟨[], ⟨[]⟩⟩ : TodoListModel Nat).getTotalCount) := by
  decide

/-- C7 amended: `getTodoItems` returns the container's live internal sequence
(not an immutable copy), so appending to the returned value is visible in all
subsequent observations: the total count grows by one and later `getTodoItems`
results show the appended entity. -/
theorem C7_live_view (H : Type) (s : TodoListModel H) (t : TodoItemModel) :
    s.getTodoItems = s.items ∧
    (s.getTodoItemsThenPush t).getTotalCount = s.getTotalCount + 1 ∧
    (s.getTodoItemsThenPush t).getTodoItems = s.getTodoItems ++ [t] :=
  ⟨rfl,
    by simp [TodoListModel.getTodoItemsThenPush, TodoListModel.getTotalCount,
      TodoListModel.getTodoItems],
    rfl⟩

/-- C8: subscribing the identical handler twice for the same key is
idempotent — the emitter state is unchanged by the second registration and a
subsequent emit invokes the handler exactly once, not twice — and
unsubscribing a handler that is not registered for the key is a no-op that
leaves the emitter unchanged. -/
theorem C8_subscribe_idempotent (H : Type) [DecidableEq H]
    (e : EventEmitter H) (t : String) (h : H) (hwf : e.WellFormed) :
    (e.addEventListener t h).addEventListener t h = e.addEventListener t h ∧
    (((e.addEventListener t h).addEventListener t h).emit t).count h = 1 ∧
    (h ∉ e.emit t → e.removeEventListener t h = e) := by
  refine ⟨?_, ?_, ?_⟩
  · simp [EventEmitter.addEventListener, addListener_idem]
  · show (lookupListeners (addListener (addListener e.listeners t h) t h) t).count h = 1
    rw [lookup_addListener, lookup_addListener, setAdd_idem]
    exact setAdd_count_self _ h (lookup_nodup e.listeners t hwf)
  · intro hnm
    show (⟨removeListener e.listeners t h⟩ : EventEmitter H) = e
    rw [removeListener_of_not_mem e.listeners t h hnm]

/-- C8 witness: concrete emitter holding listener 5 under "change";
double-registering listener 7 yields a single invocation of 7 on emit, and
removing the never-registered 7 leaves the emitter unchanged. -/
theorem C8_subscribe_idempotent_witness :
    ((((⟨[("change", [5])]⟩ : EventEmitter Nat).addEventListener "change"
        7).addEventListener "change" 7).emit "change").count 7 = 1 ∧
    (⟨[("change", [5])]⟩ : EventEmitter Nat).removeEventListener "change" 7
      = ⟨[("change", [5])]⟩ := by
  have h := C8_subscribe_idempotent Nat ⟨[("change", [5])]⟩ "change" 7
    (by unfold EventEmitter.WellFormed; decide)
  exact ⟨h.2.1, h.2.2 (by decide)⟩

/-- C9: the element builder escapes a value exactly when it is of string
type: a string contribution is `escapeSpecialChars`, any non-string value is
converted with `String()` and concatenated without escaping, so a non-string
value whose string form contains markup (here the array whose string form is
`<b>x</b>`) is inserted unescaped. -/
theorem C9_escape_only_strings :
    (∀ s : String, interpValue (JSValue.str s) = escapeSpecialChars s) ∧
    (∀ v : JSValue, v.isStr = false → interpValue v = v.jsString) ∧
    (∀ (s0 s1 : String) (v : JSValue),
      elementHtml s0 [(v, s1)] = s0 ++ interpValue v ++ s1) ∧
    elementHtml "<li>" [(JSValue.arr ["<b>x</b>"], "</li>")]
      = "<li><b>x</b></li>" := by
  refine ⟨fun s => rfl, ?_, fun s0 s1 v => rfl, by decide⟩
  intro v hv
  cases v with
  | str s => simp [JSValue.isStr] at hv
  | num n => rfl
  | bool b => rfl
  | undefined => rfl
  | arr es => rfl

/-- C9 witness: the non-string value `undefined` is interpolated as its
`String()` form with no escaping applied. -/
theorem C9_escape_only_strings_witness :
    interpValue JSValue.undefined = JSValue.undefined.jsString :=
  C9_escape_only_strings.2.1 JSValue.undefined rfl

/-- C10: mounting repeatedly does not double-subscribe: the change handler is
one stable instance field and the emitter stores listeners in a set, so after
any positive number of consecutive mount calls a single successful `addTodo`
performs one `"change"` emission that invokes the handler exactly once. -/
theorem C10_mount_once (H : Type) [DecidableEq H] (s : TodoListModel H)
    (h : H) (n : Nat) (item : TodoItemModel)
    (hwf : s.emitter.WellFormed) (hn : 1 ≤ n)
    (htitle : item.title.length ≠ 0) :
    ∃ invoked : List H,
      (((App.mount h)^[n] s).addTodo item).2 = [invoked] ∧
      invoked.count h = 1 := by
  rw [iterate_mount h s n hn]
  refine ⟨(App.mount h s).emitChange, ?_, ?_⟩
  · simp [TodoListModel.addTodo, TodoItemModel.isEmptyTitle, htitle]
  · show (lookupListeners (addListener s.emitter.listeners "change" h)
      "change").count h = 1
    rw [lookup_addListener]
    exact setAdd_count_self _ h (lookup_nodup s.emitter.listeners "change" hwf)

/-- C10 witness: mounting handler 3 twice on the fresh empty model and then
adding "Buy milk" performs one emission invoking handler 3 exactly once. -/
theorem C10_mount_once_witness :
    ∃ invoked : List Nat,
      (((App.mount 3)^[2] (⟨[], ⟨[]⟩⟩ : TodoListModel Nat)).addTodo
        ⟨0, "Buy milk", false⟩).2 = [invoked] ∧ invoked.count 3 = 1 :=
  C10_mount_once Nat ⟨[], ⟨[]⟩⟩ 3 2 ⟨0, "Buy milk", false⟩
    (by unfold EventEmitter.WellFormed; decide) (by decide) (by decide)

end ReactModan
